import Mathlib

/-!
Shallow embedding of src/index.js (github-mng-bot): the snapshot cache file
(readCache / writeCache / getFromCache), the durable user store (mongoose
User model) and the six public boundary operations described by the spec:
terms-agreement (POST /api/user/agree), getUser (GET /api/user/:telegramId),
beginAuthorization (GET /auth/github), completeAuthorization
(GET /auth/github/callback), listRepositories (POST /api/github/repos) and
createRepository (the /newrepo command body after argument parsing).

Modelling conventions:
  - JS falsy string fields (undefined or "") are modelled as String with ""
    standing for "absent"; `!s` in a guard becomes `s = ""`.
  - Times (Date.now(), toISOString stamps) are Nat milliseconds.
  - The snapshot file is either absent, unparseable JSON, or a parsed JSON
    object modelled as an association list with unique first-occurrence
    lookup (JS object keys are unique).
  - External HTTP calls (token exchange, profile fetch, repo list, repo
    creation) are parameters of the operations; each operation also returns
    the number of external hosting-API calls it performed.
  - fs.writeFileSync may throw; the JS code swallows the error.  The flag
    `wf` ("write fails") selects that branch, in which the file is left
    unchanged and no error reaches the caller.
-/

namespace GithubMngBot

/-- Repository object as returned by the hosting provider API
(the fields the code reads: name, full_name, html_url, private). -/
structure Repo where
  name : String
  full_name : String
  html_url : String
  priv : Bool
deriving DecidableEq

/-- Denormalized repository summary stored on the user document
(userSchema.repositories entries: name, full_name, url, private). -/
structure RepoSummary where
  name : String
  full_name : String
  url : String
  priv : Bool
deriving DecidableEq

/-- One document of the mongoose User model (src/index.js lines 25-42).
Optional string fields use "" for absent, matching JS falsiness checks. -/
structure User where
  telegramId : String
  githubId : String
  githubAccessToken : String
  githubUsername : String
  isAgreed : Bool
  isConnected : Bool
  createdAt : Nat
  lastActive : Nat
  repositories : List RepoSummary
deriving DecidableEq

/-- A value stored under one key of the snapshot file: a serialized user
document (user_<id>), a pending-oauth marker (oauth_<id>), a repository
list with its fetch time (repos_<id>), or the lastUpdated stamp. -/
inductive CacheValue where
  | userVal (u : User)
  | oauthVal (telegramId : String) (timestamp : Nat)
  | reposVal (data : List Repo) (cachedAt : Nat)
  | timeVal (t : Nat)
deriving DecidableEq

/-- State of the snapshot file data.json: missing, unparseable, or a parsed
JSON object (association list with unique keys). -/
inductive SnapshotFile where
  | absent
  | corrupt
  | valid (entries : List (String × CacheValue))
deriving DecidableEq

/-- Association-list lookup (first occurrence wins, as in a JS object). -/
def alistGet {α : Type} : List (String × α) → String → Option α
  | [], _ => none
  | p :: rest, k => if p.1 = k then some p.2 else alistGet rest k

/-- Association-list update: replace the binding of k, or append it. -/
def alistSet {α : Type} : List (String × α) → String → α → List (String × α)
  | [], k, v => [(k, v)]
  | p :: rest, k, v => if p.1 = k then (k, v) :: rest else p :: alistSet rest k v

/-- readCache (src/index.js lines 47-56): parse the whole file; on a missing
file or a parse error the catch returns the empty object, never throwing. -/
def readCache : SnapshotFile → List (String × CacheValue)
  | .absent => []
  | .corrupt => []
  | .valid entries => entries

/-- writeCache (src/index.js lines 58-67): re-read the file, set the one
key, stamp lastUpdated, rewrite the whole file.  A write error (wf = true)
is caught and swallowed, leaving the file as it was. -/
def writeCache (wf : Bool) (file : SnapshotFile) (key : String) (value : CacheValue)
    (now : Nat) : SnapshotFile :=
  if wf then file
  else .valid (alistSet (alistSet (readCache file) key value) "lastUpdated" (.timeVal now))

/-- getFromCache (src/index.js lines 69-72). -/
def getFromCache (file : SnapshotFile) (key : String) : Option CacheValue :=
  alistGet (readCache file) key

/-- Combined mutable state: the durable store (one document per telegramId)
and the snapshot file. -/
structure World where
  db : List (String × User)
  file : SnapshotFile
deriving DecidableEq

/-- Outcome of POST /api/user/agree: 200 success or the catch-all 500. -/
inductive AgreeResult where
  | ok
  | serverError
deriving DecidableEq

/-- POST /api/user/agree (src/index.js lines 106-137).  On a cache hit the
retrieved value is a JSON.parse'd plain object, not a mongoose document, so
`user.save()` is not a function: the call throws a TypeError which the catch
converts into a 500 response, with neither store modified. -/
def agree (w : World) (telegramId : String) (now : Nat) (wf : Bool) : AgreeResult × World :=
  match getFromCache w.file ("user_" ++ telegramId) with
  | some _ => (.serverError, w)
  | none =>
    match alistGet w.db telegramId with
    | some u =>
      let u' := { u with isAgreed := true, lastActive := now }
      (.ok, { db := alistSet w.db telegramId u',
              file := writeCache wf w.file ("user_" ++ telegramId) (.userVal u') now })
    | none =>
      let u' : User := { telegramId := telegramId, githubId := "", githubAccessToken := "",
                         githubUsername := "", isAgreed := true, isConnected := false,
                         createdAt := now, lastActive := now, repositories := [] }
      (.ok, { db := alistSet w.db telegramId u',
              file := writeCache wf w.file ("user_" ++ telegramId) (.userVal u') now })

/-- GET /api/user/:telegramId (src/index.js lines 139-157): cache first,
then the durable store (repopulating the cache on a hit), else `{}`
(modelled as none). -/
def getUser (w : World) (telegramId : String) (now : Nat) (wf : Bool) :
    Option CacheValue × World :=
  match getFromCache w.file ("user_" ++ telegramId) with
  | some v => (some v, w)
  | none =>
    match alistGet w.db telegramId with
    | some u =>
      (some (.userVal u),
       { w with file := writeCache wf w.file ("user_" ++ telegramId) (.userVal u) now })
    | none => (none, w)

/-- Authorization URL built at src/index.js line 174, ending in the state
parameter that carries the chat identity. -/
def githubAuthUrl (clientId frontendUrl telegramId : String) : String :=
  "https://github.com/login/oauth/authorize?client_id=" ++ clientId ++
    "&scope=user repo delete_repo&redirect_uri=" ++ frontendUrl ++
    "/auth/github/callback" ++ "&state=" ++ telegramId

/-- GET /auth/github (src/index.js lines 160-177): missing telegramId
redirects to /error (none); otherwise a pending-oauth marker is written and
the authorization URL returned. -/
def beginAuthorization (clientId frontendUrl : String) (w : World) (telegramId : String)
    (now : Nat) (wf : Bool) : Option String × World :=
  if telegramId = "" then (none, w)
  else
    (some (githubAuthUrl clientId frontendUrl telegramId),
     { w with file := writeCache wf w.file ("oauth_" ++ telegramId)
                        (.oauthVal telegramId now) now })

/-- The hosting provider's user profile (the fields the code reads). -/
structure GithubProfile where
  id : String
  login : String
deriving DecidableEq

/-- External OAuth provider behaviour: the token-exchange response
(access_token, "" when absent/falsy) and the profile returned for a token. -/
structure Provider where
  exchange : String → String
  profile : String → GithubProfile

/-- Outcome of GET /auth/github/callback: redirect to
/error?error=Missing parameters, /error?error=No access token, or /success. -/
inductive CallbackResult where
  | missingParams
  | noToken
  | success
deriving DecidableEq

/-- GET /auth/github/callback (src/index.js lines 179-255): guard the query
parameters, exchange the code (1st external call), fetch the profile
(2nd external call), upsert the user document with the token and
isConnected = true, and mirror it into the snapshot cache.  The follow-up
bot notification is best-effort and does not touch either store. -/
def completeAuthorization (p : Provider) (w : World) (code telegramId : String)
    (now : Nat) (wf : Bool) : CallbackResult × World × Nat :=
  if code = "" ∨ telegramId = "" then (.missingParams, w, 0)
  else
    let tok := p.exchange code
    if tok = "" then (.noToken, w, 1)
    else
      let gh := p.profile tok
      let u' : User :=
        match alistGet w.db telegramId with
        | some u => { u with githubId := gh.id, githubAccessToken := tok,
                             githubUsername := gh.login, isConnected := true,
                             lastActive := now }
        | none => { telegramId := telegramId, githubId := gh.id, githubAccessToken := tok,
                    githubUsername := gh.login, isAgreed := false, isConnected := true,
                    createdAt := now, lastActive := now, repositories := [] }
      (.success,
       { db := alistSet w.db telegramId u',
         file := writeCache wf w.file ("user_" ++ telegramId) (.userVal u') now },
       2)

/-- Outcome of POST /api/github/repos: 401 or the repository list payload. -/
inductive ReposResult where
  | notAuthenticated
  | repos (rs : List Repo)
deriving DecidableEq

/-- The truncation repos.map(repo => ({name, full_name, url, private}))
applied before storing user.repositories (src/index.js lines 290-295). -/
def toSummaries (rs : List Repo) : List RepoSummary :=
  rs.map (fun r => ⟨r.name, r.full_name, r.html_url, r.priv⟩)

/-- The cache-miss path of POST /api/github/repos (src/index.js lines
275-306): fetch from the hosting API (1 external call), overwrite the
denormalized user.repositories, save the user, write the repos_<id> cache
entry with cachedAt = now, then the user_<id> entry. -/
def listFetch (f : String → List Repo) (w : World) (user : User) (telegramId : String)
    (now : Nat) (wf : Bool) : ReposResult × World × Nat :=
  let repos := f user.githubAccessToken
  let user' := { user with repositories := toSummaries repos }
  let file1 := writeCache wf w.file ("repos_" ++ telegramId) (.reposVal repos now) now
  let file2 := writeCache wf file1 ("user_" ++ telegramId) (.userVal user') now
  (.repos repos, { db := alistSet w.db telegramId user', file := file2 }, 1)

/-- POST /api/github/repos (src/index.js lines 258-311): requires a durable
record with a truthy token (401 otherwise); a repos_<id> cache entry younger
than 5 minutes is returned without a network call (a malformed entry makes
the freshness comparison false in JS, so any non-repos value falls through
to the fetch path). -/
def listRepositories (f : String → List Repo) (w : World) (telegramId : String)
    (now : Nat) (wf : Bool) : ReposResult × World × Nat :=
  match alistGet w.db telegramId with
  | none => (.notAuthenticated, w, 0)
  | some user =>
    if user.githubAccessToken = "" then (.notAuthenticated, w, 0)
    else
      match getFromCache w.file ("repos_" ++ telegramId) with
      | some (.reposVal d c) =>
        if now - c < 5 * 60 * 1000 then (.repos d, w, 0)
        else listFetch f w user telegramId now wf
      | some (.userVal _) => listFetch f w user telegramId now wf
      | some (.oauthVal _ _) => listFetch f w user telegramId now wf
      | some (.timeVal _) => listFetch f w user telegramId now wf
      | none => listFetch f w user telegramId now wf

/-- Outcome of the /newrepo command body. -/
inductive CreateResult where
  | notConnected
  | created (r : Repo)
deriving DecidableEq

/-- The core of bot.command('newrepo') after argument parsing (src/index.js
lines 526-574): requires a durable record with a truthy token, then posts
the creation request (1 external call) and renders the reply.  Neither the
durable store nor the snapshot file is touched. -/
def createRepository (capi : String → String → String → Bool → Repo) (w : World)
    (telegramId name description : String) (isPrivate : Bool) :
    CreateResult × World × Nat :=
  match alistGet w.db telegramId with
  | none => (.notConnected, w, 0)
  | some user =>
    if user.githubAccessToken = "" then (.notConnected, w, 0)
    else (.created (capi user.githubAccessToken name description isPrivate), w, 1)

/-- Sample fixtures used to instantiate the theorems below on concrete inputs. -/
def sampleRepo : Repo := ⟨"bar", "octo/bar", "https://github.com/octo/bar", false⟩

def sampleUser : User := ⟨"42", "9", "t0k", "octo", true, true, 0, 0, []⟩

def sampleWorld : World :=
  ⟨[("42", sampleUser)], .valid [("repos_42", .reposVal [sampleRepo] 0)]⟩

def sampleProvider : Provider := ⟨fun _ => "t0k", fun _ => ⟨"9", "octo"⟩⟩

def sampleFetch : String → List Repo := fun _ => [sampleRepo]

def sampleCreate : String → String → String → Bool → Repo :=
  fun _ n _ p => ⟨n, "octo/" ++ n, "https://github.com/octo/" ++ n, p⟩

/-- The world reached from the empty deployment by one successful OAuth callback. -/
def sampleReachedWorld : World :=
  (completeAuthorization sampleProvider ⟨[], .absent⟩ "c" "42" 0 false).2.1

/-- Invariant from the spec: a record is linked iff its stored token is non-empty. -/
def recordOk (u : User) : Prop := u.isConnected = true ↔ u.githubAccessToken ≠ ""

/-- Every user record held in the durable store or in a snapshot entry
satisfies recordOk. -/
def worldOk (w : World) : Prop :=
  (∀ X u, alistGet w.db X = some u → recordOk u) ∧
  (∀ k u, getFromCache w.file k = some (.userVal u) → recordOk u)

/-- One application of a public boundary operation, with arbitrary inputs,
provider behaviour, times and write-failure outcomes. -/
inductive Step : World → World → Prop where
  | agreeStep (w : World) (id : String) (now : Nat) (wf : Bool) :
      Step w (agree w id now wf).2
  | getUserStep (w : World) (id : String) (now : Nat) (wf : Bool) :
      Step w (getUser w id now wf).2
  | beginStep (cid fu : String) (w : World) (id : String) (now : Nat) (wf : Bool) :
      Step w (beginAuthorization cid fu w id now wf).2
  | completeStep (p : Provider) (w : World) (code id : String) (now : Nat) (wf : Bool) :
      Step w (completeAuthorization p w code id now wf).2.1
  | listStep (f : String → List Repo) (w : World) (id : String) (now : Nat) (wf : Bool) :
      Step w (listRepositories f w id now wf).2.1
  | createStep (capi : String → String → String → Bool → Repo) (w : World)
      (id n d : String) (ip : Bool) :
      Step w (createRepository capi w id n d ip).2.1

/-- Worlds reachable from the empty deployment state by public operations. -/
inductive Reachable : World → Prop where
  | init : Reachable ⟨[], .absent⟩
  | step {w w' : World} : Reachable w → Step w w' → Reachable w'

lemma alistGet_set_self {α : Type} (es : List (String × α)) (k : String) (v : α) :
    alistGet (alistSet es k v) k = some v := by
  induction es with
  | nil => simp [alistGet, alistSet]
  | cons p rest ih =>
    by_cases h : p.1 = k
    · simp [alistSet, alistGet, h]
    · simp [alistSet, alistGet, h, ih]

lemma alistGet_set_other {α : Type} (es : List (String × α)) (k k' : String) (v : α)
    (h : k' ≠ k) : alistGet (alistSet es k v) k' = alistGet es k' := by
  have hk : ¬k = k' := fun hh => h hh.symm
  induction es with
  | nil => simp [alistGet, alistSet, hk]
  | cons p rest ih =>
    by_cases hp : p.1 = k
    · simp [alistSet, alistGet, hp, hk]
    · simp [alistSet, alistGet, hp, ih]

lemma str_data_append (s t : String) : (s ++ t).data = s.data ++ t.data := rfl

lemma userKey_ne_lastUpdated (X : String) : "user_" ++ X ≠ "lastUpdated" := by
  intro h
  have h2 : ("user_" ++ X).data = "lastUpdated".data := by rw [h]
  rw [str_data_append] at h2
  simp at h2

lemma reposKey_ne_lastUpdated (X : String) : "repos_" ++ X ≠ "lastUpdated" := by
  intro h
  have h2 : ("repos_" ++ X).data = "lastUpdated".data := by rw [h]
  rw [str_data_append] at h2
  simp at h2

lemma reposKey_ne_userKey (X Y : String) : "repos_" ++ X ≠ "user_" ++ Y := by
  intro h
  have h2 : ("repos_" ++ X).data = ("user_" ++ Y).data := by rw [h]
  rw [str_data_append, str_data_append] at h2
  simp at h2

lemma getFromCache_writeCache_self (file : SnapshotFile) (k : String) (v : CacheValue)
    (now : Nat) (hk : k ≠ "lastUpdated") :
    getFromCache (writeCache false file k v now) k = some v := by
  simp [writeCache, getFromCache, readCache, alistGet_set_other _ _ _ _ hk, alistGet_set_self]

lemma getFromCache_writeCache_stamp (file : SnapshotFile) (k : String) (v : CacheValue)
    (now : Nat) :
    getFromCache (writeCache false file k v now) "lastUpdated" = some (.timeVal now) := by
  simp [writeCache, getFromCache, readCache, alistGet_set_self]

lemma getFromCache_writeCache_other (file : SnapshotFile) (k : String) (v : CacheValue)
    (now : Nat) (k' : String) (h1 : k' ≠ k) (h2 : k' ≠ "lastUpdated") :
    getFromCache (writeCache false file k v now) k' = getFromCache file k' := by
  simp [writeCache, getFromCache, readCache,
    alistGet_set_other _ _ _ _ h2, alistGet_set_other _ _ _ _ h1]

/-- C6: listRepositories for a chat identity with no user record, or with an
empty stored token, fails with Unauthenticated (the 401 branch), issues no
external hosting-API call, and leaves both stores unchanged. -/
theorem c6_listRepositories_unauthenticated (f : String → List Repo) (w : World)
    (X : String) (now : Nat) (wf : Bool)
    (h : ∀ u, alistGet w.db X = some u → u.githubAccessToken = "") :
    listRepositories f w X now wf = (.notAuthenticated, w, 0) := by
  cases hdb : alistGet w.db X with
  | none => simp [listRepositories, hdb]
  | some u => simp [listRepositories, hdb, h u hdb]

/-- C6 witness: a chat identity with no record at all is rejected. -/
theorem c6_witness :
    listRepositories sampleFetch ⟨[], .absent⟩ "42" 0 false =
      (.notAuthenticated, ⟨[], .absent⟩, 0) :=
  c6_listRepositories_unauthenticated sampleFetch ⟨[], .absent⟩ "42" 0 false
    (fun u hu => by simp [alistGet] at hu)

/-- C7: the OAuth callback with an absent code or absent chat identity
redirects with Missing parameters before any network call (0 external
calls) and mutates neither store. -/
theorem c7_completeAuthorization_missingParameter (p : Provider) (w : World)
    (code X : String) (now : Nat) (wf : Bool) (h : code = "" ∨ X = "") :
    completeAuthorization p w code X now wf = (.missingParams, w, 0) := by
  unfold completeAuthorization
  rw [if_pos h]

/-- C7 witness: an empty code is rejected with no call and no mutation. -/
theorem c7_witness :
    completeAuthorization sampleProvider sampleWorld "" "42" 0 false =
      (.missingParams, sampleWorld, 0) :=
  c7_completeAuthorization_missingParameter sampleProvider sampleWorld "" "42" 0 false
    (Or.inl rfl)

/-- C8: a missing or unparseable snapshot file degrades every read to a
cache miss (readCache and getFromCache return nothing and never throw), and
getUser then falls back to the durable store and returns the record for X. -/
theorem c8_snapshot_corruption_resilience (w : World) (X : String) (now : Nat)
    (wf : Bool) (u : User) (hfile : w.file = .corrupt ∨ w.file = .absent)
    (hdb : alistGet w.db X = some u) :
    (∀ k, getFromCache w.file k = none) ∧
    (getUser w X now wf).1 = some (.userVal u) := by
  have hread : readCache w.file = [] := by
    cases hfile with
    | inl h => rw [h]; rfl
    | inr h => rw [h]; rfl
  constructor
  · intro k; simp [getFromCache, hread, alistGet]
  · simp [getUser, getFromCache, hread, alistGet, hdb]

/-- C8 witness: with a corrupt snapshot file the durable record is returned. -/
theorem c8_witness :
    (∀ k, getFromCache (SnapshotFile.corrupt) k = none) ∧
    (getUser ⟨[("42", sampleUser)], .corrupt⟩ "42" 3 false).1 =
      some (.userVal sampleUser) :=
  c8_snapshot_corruption_resilience ⟨[("42", sampleUser)], .corrupt⟩ "42" 3 false
    sampleUser (Or.inl rfl) (by decide)

/-- C9: two beginAuthorization calls for the same chat identity both return
the authorization URL embedding state=X, and neither call mutates any user
record: the durable store is untouched (only the oauth_<id> snapshot marker
is written). -/
theorem c9_beginAuthorization_idempotent (cid fu : String) (w : World) (X : String)
    (t1 t2 : Nat) (wf : Bool) (h : X ≠ "") :
    (beginAuthorization cid fu w X t1 wf).1 = some (githubAuthUrl cid fu X) ∧
    (beginAuthorization cid fu (beginAuthorization cid fu w X t1 wf).2 X t2 wf).1 =
      some (githubAuthUrl cid fu X) ∧
    (∃ pre, githubAuthUrl cid fu X = pre ++ "&state=" ++ X) ∧
    (beginAuthorization cid fu w X t1 wf).2.db = w.db ∧
    (beginAuthorization cid fu (beginAuthorization cid fu w X t1 wf).2 X t2 wf).2.db =
      w.db := by
  refine ⟨by simp [beginAuthorization, h], by simp [beginAuthorization, h], ⟨_, rfl⟩,
    by simp [beginAuthorization, h], by simp [beginAuthorization, h]⟩

/-- C9 witness: two calls for chat identity 42 on the sample world. -/
theorem c9_witness :
    (beginAuthorization "cid" "https://app" sampleWorld "42" 0 false).1 =
      some (githubAuthUrl "cid" "https://app" "42") ∧
    (beginAuthorization "cid" "https://app"
        (beginAuthorization "cid" "https://app" sampleWorld "42" 0 false).2 "42" 1 false).1 =
      some (githubAuthUrl "cid" "https://app" "42") ∧
    (∃ pre, githubAuthUrl "cid" "https://app" "42" = pre ++ "&state=" ++ "42") ∧
    (beginAuthorization "cid" "https://app" sampleWorld "42" 0 false).2.db =
      sampleWorld.db ∧
    (beginAuthorization "cid" "https://app"
        (beginAuthorization "cid" "https://app" sampleWorld "42" 0 false).2 "42" 1 false).2.db =
      sampleWorld.db :=
  c9_beginAuthorization_idempotent "cid" "https://app" sampleWorld "42" 0 1 false
    (by decide)

/-- C10 counterexample: the claim quantifies over every key, but a write to
the key lastUpdated itself is immediately overwritten by the timestamp
stamp, so that key is not set to the given value. -/
theorem c10_counterexample :
    getFromCache (writeCache false .absent "lastUpdated" (.oauthVal "x" 0) 7)
      "lastUpdated" ≠ some (.oauthVal "x" 0) := by decide

/-- C10 amended: for every snapshot file state and every key other than the
reserved lastUpdated stamp, writeCache sets that key to the value, updates
the top-level lastUpdated timestamp, and leaves every other key unchanged;
a failed write is swallowed, leaving the file exactly as it was. -/
theorem c10_writeCache_frame (file : SnapshotFile) (k : String) (v : CacheValue)
    (now : Nat) (hk : k ≠ "lastUpdated") :
    getFromCache (writeCache false file k v now) k = some v ∧
    getFromCache (writeCache false file k v now) "lastUpdated" = some (.timeVal now) ∧
    (∀ k', k' ≠ k → k' ≠ "lastUpdated" →
      getFromCache (writeCache false file k v now) k' = getFromCache file k') ∧
    writeCache true file k v now = file := by
  exact ⟨getFromCache_writeCache_self file k v now hk,
    getFromCache_writeCache_stamp file k v now,
    fun k' h1 h2 => getFromCache_writeCache_other file k v now k' h1 h2,
    rfl⟩

/-- C10 witness: writing repos_42 into the sample snapshot. -/
theorem c10_witness :
    getFromCache (writeCache false sampleWorld.file "repos_42" (.timeVal 1) 9)
      "repos_42" = some (.timeVal 1) ∧
    getFromCache (writeCache false sampleWorld.file "repos_42" (.timeVal 1) 9)
      "lastUpdated" = some (.timeVal 9) ∧
    (∀ k', k' ≠ "repos_42" → k' ≠ "lastUpdated" →
      getFromCache (writeCache false sampleWorld.file "repos_42" (.timeVal 1) 9) k' =
        getFromCache sampleWorld.file k') ∧
    writeCache true sampleWorld.file "repos_42" (.timeVal 1) 9 = sampleWorld.file :=
  c10_writeCache_frame sampleWorld.file "repos_42" (.timeVal 1) 9 (by decide)

/-- C3: the terms-agreement upsert claim fails on the code.  After a first
successful agreement for chat identity 42 the snapshot holds a user_42
entry; the second agreement call then retrieves a JSON-parsed plain object
whose save method does not exist, so the handler throws a TypeError and the
catch answers with the 500 branch instead of updating the record in place
and succeeding; neither store is changed by the failing call. -/
theorem c3_agree_with_cache_entry_fails :
    (agree ⟨[], .absent⟩ "42" 0 false).1 = .ok ∧
    agree (agree ⟨[], .absent⟩ "42" 0 false).2 "42" 1 false =
      (.serverError, (agree ⟨[], .absent⟩ "42" 0 false).2) := by decide

lemma createRepository_world (capi : String → String → String → Bool → Repo)
    (w : World) (X n d : String) (ip : Bool) :
    (createRepository capi w X n d ip).2.1 = w := by
  cases hdb : alistGet w.db X with
  | none => simp [createRepository, hdb]
  | some u =>
    by_cases htok : u.githubAccessToken = "" <;> simp [createRepository, hdb, htok]

lemma listRepositories_hit (f : String → List Repo) (w : World) (X : String)
    (now : Nat) (wf : Bool) (u : User) (d : List Repo) (c : Nat)
    (hdb : alistGet w.db X = some u) (htok : u.githubAccessToken ≠ "")
    (hentry : getFromCache w.file ("repos_" ++ X) = some (.reposVal d c))
    (hfresh : now - c < 5 * 60 * 1000) :
    listRepositories f w X now wf = (.repos d, w, 0) := by
  simp [listRepositories, hdb, htok, hentry, hfresh]

/-- C5: createRepository touches neither store, so the repos_<id> snapshot
entry survives unchanged, and a listRepositories call still inside the
5-minute freshness window of an earlier list fetch returns the cached list,
which does not contain the repository just created under a new name. -/
theorem c5_createRepository_stale_cache (capi : String → String → String → Bool → Repo)
    (f : String → List Repo) (w : World) (X n desc : String) (ip : Bool)
    (t2 : Nat) (d : List Repo) (c : Nat) (u : User)
    (hdb : alistGet w.db X = some u) (htok : u.githubAccessToken ≠ "")
    (hentry : getFromCache w.file ("repos_" ++ X) = some (.reposVal d c))
    (hfresh : t2 - c < 5 * 60 * 1000)
    (hnew : ∀ r ∈ d, r.name ≠ n) :
    (createRepository capi w X n desc ip).1 =
      .created (capi u.githubAccessToken n desc ip) ∧
    (createRepository capi w X n desc ip).2.1 = w ∧
    getFromCache (createRepository capi w X n desc ip).2.1.file ("repos_" ++ X) =
      some (.reposVal d c) ∧
    listRepositories f (createRepository capi w X n desc ip).2.1 X t2 false =
      (.repos d, w, 0) ∧
    ∀ r ∈ d, r.name ≠ n := by
  have hw : (createRepository capi w X n desc ip).2.1 = w :=
    createRepository_world capi w X n desc ip
  refine ⟨by simp [createRepository, hdb, htok], hw, by rw [hw]; exact hentry, ?_, hnew⟩
  rw [hw]
  exact listRepositories_hit f w X t2 false u d c hdb htok hentry hfresh

/-- C5 witness: creating foo and listing within the window misses foo. -/
theorem c5_witness :
    listRepositories sampleFetch
      (createRepository sampleCreate sampleWorld "42" "foo" "" false).2.1 "42" 1000 false =
      (.repos [sampleRepo], sampleWorld, 0) ∧
    ∀ r ∈ [sampleRepo], r.name ≠ "foo" :=
  ⟨(c5_createRepository_stale_cache sampleCreate sampleFetch sampleWorld "42" "foo" ""
      false 1000 [sampleRepo] 0 sampleUser (by decide) (by decide) (by decide)
      (by decide) (by decide)).2.2.2.1,
   (c5_createRepository_stale_cache sampleCreate sampleFetch sampleWorld "42" "foo" ""
      false 1000 [sampleRepo] 0 sampleUser (by decide) (by decide) (by decide)
      (by decide) (by decide)).2.2.2.2⟩

lemma completeAuthorization_success_world (p : Provider) (w : World) (code X : String)
    (now : Nat) (wf : Bool) (hc : ¬(code = "" ∨ X = "")) (ht : p.exchange code ≠ "") :
    ∃ u' : User, u'.isConnected = true ∧ u'.githubAccessToken = p.exchange code ∧
      completeAuthorization p w code X now wf =
        (.success,
         { db := alistSet w.db X u',
           file := writeCache wf w.file ("user_" ++ X) (.userVal u') now }, 2) := by
  cases hdb : alistGet w.db X with
  | some u =>
    refine ⟨({ u with githubId := (p.profile (p.exchange code)).id, githubAccessToken := p.exchange code, githubUsername := (p.profile (p.exchange code)).login, isConnected := true, lastActive := now } : User), rfl, rfl, ?_⟩
    simp [completeAuthorization, hc, ht, hdb]
  | none =>
    refine ⟨({ telegramId := X, githubId := (p.profile (p.exchange code)).id, githubAccessToken := p.exchange code, githubUsername := (p.profile (p.exchange code)).login, isAgreed := false, isConnected := true, createdAt := now, lastActive := now, repositories := [] } : User), rfl, rfl, ?_⟩
    simp [completeAuthorization, hc, ht, hdb]

/-- C1: when the OAuth callback succeeds (the provider returned a token and
a profile), the resulting user record has isConnected = true and a
non-empty token, it is stored identically in the durable store and in the
user_<id> snapshot entry, and a subsequent getUser returns that record. -/
theorem c1_completeAuthorization_then_getUser (p : Provider) (w : World)
    (code X : String) (now t : Nat)
    (h : (completeAuthorization p w code X now false).1 = .success) :
    ∃ u : User,
      alistGet (completeAuthorization p w code X now false).2.1.db X = some u ∧
      getFromCache (completeAuthorization p w code X now false).2.1.file
        ("user_" ++ X) = some (.userVal u) ∧
      (getUser (completeAuthorization p w code X now false).2.1 X t false).1 =
        some (.userVal u) ∧
      u.isConnected = true ∧ u.githubAccessToken ≠ "" := by
  by_cases hc : code = "" ∨ X = ""
  · exfalso
    unfold completeAuthorization at h
    rw [if_pos hc] at h
    exact CallbackResult.noConfusion h
  · by_cases ht : p.exchange code = ""
    · exfalso
      simp [completeAuthorization, hc, ht] at h
    · obtain ⟨u', hconn, htokeq, heq⟩ :=
        completeAuthorization_success_world p w code X now false hc ht
      rw [heq]
      have hcache : getFromCache
          (writeCache false w.file ("user_" ++ X) (.userVal u') now) ("user_" ++ X) =
          some (.userVal u') :=
        getFromCache_writeCache_self _ _ _ _ (userKey_ne_lastUpdated X)
      refine ⟨u', alistGet_set_self _ _ _, hcache, ?_, hconn, by rw [htokeq]; exact ht⟩
      simp [getUser, hcache]

/-- C1 witness: a successful callback for chat identity 42 from the empty
deployment state. -/
theorem c1_witness :
    ∃ u : User,
      alistGet (completeAuthorization sampleProvider ⟨[], .absent⟩ "c" "42" 0
          false).2.1.db "42" = some u ∧
      getFromCache (completeAuthorization sampleProvider ⟨[], .absent⟩ "c" "42" 0
          false).2.1.file ("user_" ++ "42") = some (.userVal u) ∧
      (getUser (completeAuthorization sampleProvider ⟨[], .absent⟩ "c" "42" 0
          false).2.1 "42" 1 false).1 = some (.userVal u) ∧
      u.isConnected = true ∧ u.githubAccessToken ≠ "" :=
  c1_completeAuthorization_then_getUser sampleProvider ⟨[], .absent⟩ "c" "42" 0 1
    (by decide)

lemma listFetch_eq (f : String → List Repo) (w : World) (u : User) (X : String)
    (now : Nat) (wf : Bool) :
    listFetch f w u X now wf =
      (.repos (f u.githubAccessToken),
       { db := alistSet w.db X { u with repositories := toSummaries (f u.githubAccessToken) },
         file := writeCache wf (writeCache wf w.file ("repos_" ++ X) (.reposVal (f u.githubAccessToken) now) now) ("user_" ++ X) (.userVal { u with repositories := toSummaries (f u.githubAccessToken) }) now },
       1) := rfl

lemma listRepositories_numCalls_le_one (f : String → List Repo) (w : World) (X : String)
    (now : Nat) (wf : Bool) : (listRepositories f w X now wf).2.2 ≤ 1 := by
  cases hdb : alistGet w.db X with
  | none => simp [listRepositories, hdb]
  | some u =>
    by_cases htok : u.githubAccessToken = ""
    · simp [listRepositories, hdb, htok]
    · cases hent : getFromCache w.file ("repos_" ++ X) with
      | none => simp [listRepositories, hdb, htok, hent, listFetch]
      | some v =>
        cases v with
        | reposVal d c =>
          by_cases hfr : now - c < 5 * 60 * 1000 <;>
            simp [listRepositories, hdb, htok, hent, hfr, listFetch]
        | userVal u2 => simp [listRepositories, hdb, htok, hent, listFetch]
        | oauthVal a b => simp [listRepositories, hdb, htok, hent, listFetch]
        | timeVal t => simp [listRepositories, hdb, htok, hent, listFetch]

lemma listRepositories_fetch_of_not_fresh (f : String → List Repo) (w : World)
    (X : String) (now : Nat) (wf : Bool) (u : User)
    (hdb : alistGet w.db X = some u) (htok : u.githubAccessToken ≠ "")
    (hstale : ∀ d c, getFromCache w.file ("repos_" ++ X) = some (.reposVal d c) →
      ¬(now - c < 5 * 60 * 1000)) :
    listRepositories f w X now wf = listFetch f w u X now wf := by
  cases hent : getFromCache w.file ("repos_" ++ X) with
  | none => simp [listRepositories, hdb, htok, hent]
  | some v =>
    cases v with
    | reposVal d c => simp [listRepositories, hdb, htok, hent, hstale d c hent]
    | userVal u2 => simp [listRepositories, hdb, htok, hent]
    | oauthVal a b => simp [listRepositories, hdb, htok, hent]
    | timeVal t => simp [listRepositories, hdb, htok, hent]

lemma listFetch_entry (f : String → List Repo) (w : World) (u : User) (X : String)
    (now : Nat) :
    getFromCache (listFetch f w u X now false).2.1.file ("repos_" ++ X) =
      some (.reposVal (f u.githubAccessToken) now) := by
  rw [listFetch_eq]
  rw [getFromCache_writeCache_other _ _ _ _ _ (reposKey_ne_userKey X X)
    (reposKey_ne_lastUpdated X)]
  exact getFromCache_writeCache_self _ _ _ _ (reposKey_ne_lastUpdated X)

/-- C4: for a linked chat identity, two listRepositories calls less than
5 minutes apart issue at most one external call; when the first call did
fetch, the second returns the cached payload with no network call; and any
call finding the repos entry stale (the window has elapsed) issues a new
external call and overwrites the entry with cachedAt set to the call time. -/
theorem c4_cache_freshness (f : String → List Repo) (w : World) (X : String)
    (t1 t2 : Nat) (u : User)
    (hdb : alistGet w.db X = some u) (htok : u.githubAccessToken ≠ "")
    (hlt : t2 - t1 < 5 * 60 * 1000) :
    ((listRepositories f w X t1 false).2.2 +
      (listRepositories f (listRepositories f w X t1 false).2.1 X t2 false).2.2 ≤ 1) ∧
    ((listRepositories f w X t1 false).2.2 = 1 →
      ∃ d, getFromCache (listRepositories f w X t1 false).2.1.file ("repos_" ++ X) =
          some (.reposVal d t1) ∧
        listRepositories f (listRepositories f w X t1 false).2.1 X t2 false =
          (.repos d, (listRepositories f w X t1 false).2.1, 0)) ∧
    (∀ (w' : World) (u' : User) (d : List Repo) (c t3 : Nat),
      alistGet w'.db X = some u' → u'.githubAccessToken ≠ "" →
      getFromCache w'.file ("repos_" ++ X) = some (.reposVal d c) →
      ¬(t3 - c < 5 * 60 * 1000) →
      (listRepositories f w' X t3 false).2.2 = 1 ∧
      ∃ d', getFromCache (listRepositories f w' X t3 false).2.1.file ("repos_" ++ X) =
        some (.reposVal d' t3)) := by
  have third : ∀ (w' : World) (u' : User) (d : List Repo) (c t3 : Nat),
      alistGet w'.db X = some u' → u'.githubAccessToken ≠ "" →
      getFromCache w'.file ("repos_" ++ X) = some (.reposVal d c) →
      ¬(t3 - c < 5 * 60 * 1000) →
      (listRepositories f w' X t3 false).2.2 = 1 ∧
      ∃ d', getFromCache (listRepositories f w' X t3 false).2.1.file ("repos_" ++ X) =
        some (.reposVal d' t3) := by
    intro w' u' d c t3 hdb' htok' hent' hst'
    have hstale : ∀ d2 c2,
        getFromCache w'.file ("repos_" ++ X) = some (.reposVal d2 c2) →
        ¬(t3 - c2 < 5 * 60 * 1000) := by
      intro d2 c2 h2
      rw [hent'] at h2
      obtain ⟨h3, h4⟩ : d = d2 ∧ c = c2 := by
        injection h2 with h5
        injection h5 with h6 h7
        exact ⟨h6, h7⟩
      rw [← h4]
      exact hst'
    have heq : listRepositories f w' X t3 false = listFetch f w' u' X t3 false :=
      listRepositories_fetch_of_not_fresh f w' X t3 false u' hdb' htok' hstale
    refine ⟨by rw [heq, listFetch_eq], f u'.githubAccessToken, ?_⟩
    rw [heq]
    exact listFetch_entry f w' u' X t3
  have fetchCase : listRepositories f w X t1 false = listFetch f w u X t1 false →
      ((listRepositories f w X t1 false).2.2 +
        (listRepositories f (listRepositories f w X t1 false).2.1 X t2 false).2.2 ≤ 1) ∧
      ((listRepositories f w X t1 false).2.2 = 1 →
        ∃ d, getFromCache (listRepositories f w X t1 false).2.1.file ("repos_" ++ X) =
            some (.reposVal d t1) ∧
          listRepositories f (listRepositories f w X t1 false).2.1 X t2 false =
            (.repos d, (listRepositories f w X t1 false).2.1, 0)) := by
    intro heq1
    have hent1 : getFromCache (listRepositories f w X t1 false).2.1.file
        ("repos_" ++ X) = some (.reposVal (f u.githubAccessToken) t1) := by
      rw [heq1]; exact listFetch_entry f w u X t1
    have hdb1 : alistGet (listRepositories f w X t1 false).2.1.db X =
        some { u with repositories := toSummaries (f u.githubAccessToken) } := by
      rw [heq1, listFetch_eq]; exact alistGet_set_self _ _ _
    have hhit2 : listRepositories f (listRepositories f w X t1 false).2.1 X t2 false =
        (.repos (f u.githubAccessToken), (listRepositories f w X t1 false).2.1, 0) :=
      listRepositories_hit f _ X t2 false _ _ t1 hdb1 htok hent1 hlt
    constructor
    · rw [heq1, listFetch_eq] at hhit2 ⊢
      rw [hhit2]
      simp
    · intro _
      exact ⟨f u.githubAccessToken, hent1, hhit2⟩
  refine ⟨?_, ?_, third⟩ <;>
  · cases hent : getFromCache w.file ("repos_" ++ X) with
    | none =>
      have h := fetchCase (listRepositories_fetch_of_not_fresh f w X t1 false u hdb htok
        (fun d2 c2 h2 => by rw [hent] at h2; exact Option.noConfusion h2))
      first
      | exact h.1
      | exact h.2
    | some v =>
      cases v with
      | reposVal d c =>
        by_cases hfr : t1 - c < 5 * 60 * 1000
        · have h1 : listRepositories f w X t1 false = (.repos d, w, 0) :=
            listRepositories_hit f w X t1 false u d c hdb htok hent hfr
          first
          | · rw [h1]
              show 0 + (listRepositories f w X t2 false).2.2 ≤ 1
              rw [Nat.zero_add]
              exact listRepositories_numCalls_le_one f w X t2 false
          | · rw [h1]
              intro h0
              exact absurd h0 (by norm_num)
        · have h := fetchCase (listRepositories_fetch_of_not_fresh f w X t1 false u hdb
            htok (fun d2 c2 h2 => by
              rw [hent] at h2
              obtain ⟨h3, h4⟩ : d = d2 ∧ c = c2 := by
                injection h2 with h5
                injection h5 with h6 h7
                exact ⟨h6, h7⟩
              rw [← h4]
              exact hfr))
          first
          | exact h.1
          | exact h.2
      | userVal u2 =>
        have h := fetchCase (listRepositories_fetch_of_not_fresh f w X t1 false u hdb htok
          (fun d2 c2 h2 => by rw [hent] at h2; exact absurd h2 (by simp)))
        first
        | exact h.1
        | exact h.2
      | oauthVal a b =>
        have h := fetchCase (listRepositories_fetch_of_not_fresh f w X t1 false u hdb htok
          (fun d2 c2 h2 => by rw [hent] at h2; exact absurd h2 (by simp)))
        first
        | exact h.1
        | exact h.2
      | timeVal t0 =>
        have h := fetchCase (listRepositories_fetch_of_not_fresh f w X t1 false u hdb htok
          (fun d2 c2 h2 => by rw [hent] at h2; exact absurd h2 (by simp)))
        first
        | exact h.1
        | exact h.2

/-- C4 witness: two calls at times 0 and 1 on the sample world. -/
theorem c4_witness :
    (listRepositories sampleFetch sampleWorld "42" 0 false).2.2 +
      (listRepositories sampleFetch
        (listRepositories sampleFetch sampleWorld "42" 0 false).2.1 "42" 1 false).2.2 ≤ 1 :=
  (c4_cache_freshness sampleFetch sampleWorld "42" 0 1 sampleUser (by decide) (by decide)
    (by decide)).1

lemma dbOk_set (db : List (String × User)) (X : String) (u' : User)
    (h : ∀ Y u, alistGet db Y = some u → recordOk u) (hu : recordOk u') :
    ∀ Y u, alistGet (alistSet db X u') Y = some u → recordOk u := by
  intro Y u hY
  by_cases hXY : Y = X
  · subst hXY
    rw [alistGet_set_self] at hY
    injection hY with h2
    rw [← h2]
    exact hu
  · rw [alistGet_set_other _ _ _ _ hXY] at hY
    exact h Y u hY

lemma cacheOk_write (wf : Bool) (file : SnapshotFile) (k : String) (v : CacheValue)
    (now : Nat)
    (h : ∀ k' u, getFromCache file k' = some (.userVal u) → recordOk u)
    (hv : ∀ u, v = .userVal u → recordOk u) :
    ∀ k' u, getFromCache (writeCache wf file k v now) k' = some (.userVal u) →
      recordOk u := by
  intro k' u hk'
  cases wf with
  | true => exact h k' u hk'
  | false =>
    have hk2 : alistGet (alistSet (alistSet (readCache file) k v) "lastUpdated"
        (.timeVal now)) k' = some (.userVal u) := hk'
    by_cases hlast : k' = "lastUpdated"
    · subst hlast
      rw [alistGet_set_self] at hk2
      exact absurd hk2 (by simp)
    · rw [alistGet_set_other _ _ _ _ hlast] at hk2
      by_cases hkk : k' = k
      · subst hkk
        rw [alistGet_set_self] at hk2
        injection hk2 with h2
        exact hv u h2
      · rw [alistGet_set_other _ _ _ _ hkk] at hk2
        exact h k' u hk2

lemma worldOk_agree (w : World) (id : String) (now : Nat) (wf : Bool) (h : worldOk w) :
    worldOk (agree w id now wf).2 := by
  obtain ⟨hdb, hcache⟩ := h
  cases hc : getFromCache w.file ("user_" ++ id) with
  | some v =>
    have he : (agree w id now wf).2 = w := by simp [agree, hc]
    rw [he]; exact ⟨hdb, hcache⟩
  | none =>
    cases hu : alistGet w.db id with
    | some u =>
      have hrec : recordOk { u with isAgreed := true, lastActive := now } := hdb id u hu
      have he : (agree w id now wf).2 =
          ⟨alistSet w.db id { u with isAgreed := true, lastActive := now },
           writeCache wf w.file ("user_" ++ id)
             (.userVal { u with isAgreed := true, lastActive := now }) now⟩ := by
        simp [agree, hc, hu]
      rw [he]
      exact ⟨dbOk_set _ _ _ hdb hrec, cacheOk_write _ _ _ _ _ hcache
        (fun u2 h2 => by injection h2 with h3; rw [← h3]; exact hrec)⟩
    | none =>
      have hrec : recordOk (⟨id, "", "", "", true, false, now, now, []⟩ : User) := by
        simp [recordOk]
      have he : (agree w id now wf).2 =
          ⟨alistSet w.db id ⟨id, "", "", "", true, false, now, now, []⟩,
           writeCache wf w.file ("user_" ++ id)
             (.userVal ⟨id, "", "", "", true, false, now, now, []⟩) now⟩ := by
        simp [agree, hc, hu]
      rw [he]
      exact ⟨dbOk_set _ _ _ hdb hrec, cacheOk_write _ _ _ _ _ hcache
        (fun u2 h2 => by injection h2 with h3; rw [← h3]; exact hrec)⟩

lemma worldOk_getUser (w : World) (id : String) (now : Nat) (wf : Bool)
    (h : worldOk w) : worldOk (getUser w id now wf).2 := by
  obtain ⟨hdb, hcache⟩ := h
  cases hc : getFromCache w.file ("user_" ++ id) with
  | some v =>
    have he : (getUser w id now wf).2 = w := by simp [getUser, hc]
    rw [he]; exact ⟨hdb, hcache⟩
  | none =>
    cases hu : alistGet w.db id with
    | some u =>
      have hrec : recordOk u := hdb id u hu
      have he : (getUser w id now wf).2 =
          { w with file := writeCache wf w.file ("user_" ++ id) (.userVal u) now } := by
        simp [getUser, hc, hu]
      rw [he]
      exact ⟨hdb, cacheOk_write _ _ _ _ _ hcache
        (fun u2 h2 => by injection h2 with h3; rw [← h3]; exact hrec)⟩
    | none =>
      have he : (getUser w id now wf).2 = w := by simp [getUser, hc, hu]
      rw [he]; exact ⟨hdb, hcache⟩

lemma worldOk_begin (cid fu : String) (w : World) (id : String) (now : Nat) (wf : Bool)
    (h : worldOk w) : worldOk (beginAuthorization cid fu w id now wf).2 := by
  obtain ⟨hdb, hcache⟩ := h
  by_cases hid : id = ""
  · have he : (beginAuthorization cid fu w id now wf).2 = w := by
      simp [beginAuthorization, hid]
    rw [he]; exact ⟨hdb, hcache⟩
  · have he : (beginAuthorization cid fu w id now wf).2 =
        { w with file := writeCache wf w.file ("oauth_" ++ id) (.oauthVal id now) now } := by
      simp [beginAuthorization, hid]
    rw [he]
    exact ⟨hdb, cacheOk_write _ _ _ _ _ hcache (fun u2 h2 => absurd h2 (by simp))⟩

lemma worldOk_complete (p : Provider) (w : World) (code id : String) (now : Nat)
    (wf : Bool) (h : worldOk w) :
    worldOk (completeAuthorization p w code id now wf).2.1 := by
  obtain ⟨hdb, hcache⟩ := h
  by_cases hc : code = "" ∨ id = ""
  · have he : (completeAuthorization p w code id now wf).2.1 = w := by
      unfold completeAuthorization; rw [if_pos hc]
    rw [he]; exact ⟨hdb, hcache⟩
  · by_cases ht : p.exchange code = ""
    · have he : (completeAuthorization p w code id now wf).2.1 = w := by
        simp [completeAuthorization, hc, ht]
      rw [he]; exact ⟨hdb, hcache⟩
    · obtain ⟨u', hconn, htokeq, heq⟩ :=
        completeAuthorization_success_world p w code id now wf hc ht
      rw [heq]
      have hrec : recordOk u' := by
        show u'.isConnected = true ↔ u'.githubAccessToken ≠ ""
        rw [hconn, htokeq]
        simp [ht]
      exact ⟨dbOk_set _ _ _ hdb hrec, cacheOk_write _ _ _ _ _ hcache
        (fun u2 h2 => by injection h2 with h3; rw [← h3]; exact hrec)⟩

lemma worldOk_listFetch (f : String → List Repo) (w : World) (u : User) (id : String)
    (now : Nat) (wf : Bool)
    (hdb : ∀ Y v, alistGet w.db Y = some v → recordOk v)
    (hcache : ∀ k v, getFromCache w.file k = some (.userVal v) → recordOk v)
    (hrecu : recordOk u) : worldOk (listFetch f w u id now wf).2.1 := by
  rw [listFetch_eq]
  have hrec' : recordOk { u with repositories := toSummaries (f u.githubAccessToken) } :=
    hrecu
  refine ⟨dbOk_set _ _ _ hdb hrec', ?_⟩
  apply cacheOk_write
  · apply cacheOk_write
    · exact hcache
    · exact fun u2 h2 => absurd h2 (by simp)
  · exact fun u2 h2 => by injection h2 with h3; rw [← h3]; exact hrec'

lemma worldOk_list (f : String → List Repo) (w : World) (id : String) (now : Nat)
    (wf : Bool) (h : worldOk w) : worldOk (listRepositories f w id now wf).2.1 := by
  obtain ⟨hdb, hcache⟩ := h
  cases hu : alistGet w.db id with
  | none =>
    have he : (listRepositories f w id now wf).2.1 = w := by simp [listRepositories, hu]
    rw [he]; exact ⟨hdb, hcache⟩
  | some u =>
    by_cases htok : u.githubAccessToken = ""
    · have he : (listRepositories f w id now wf).2.1 = w := by
        simp [listRepositories, hu, htok]
      rw [he]; exact ⟨hdb, hcache⟩
    · have hfetch : worldOk (listFetch f w u id now wf).2.1 :=
        worldOk_listFetch f w u id now wf hdb hcache (hdb id u hu)
      cases hent : getFromCache w.file ("repos_" ++ id) with
      | none =>
        have he : (listRepositories f w id now wf).2.1 = (listFetch f w u id now wf).2.1 := by
          simp [listRepositories, hu, htok, hent]
        rw [he]; exact hfetch
      | some v =>
        cases v with
        | reposVal d c =>
          by_cases hfr : now - c < 5 * 60 * 1000
          · have he : (listRepositories f w id now wf).2.1 = w := by
              simp [listRepositories, hu, htok, hent, hfr]
            rw [he]; exact ⟨hdb, hcache⟩
          · have he : (listRepositories f w id now wf).2.1 =
                (listFetch f w u id now wf).2.1 := by
              simp [listRepositories, hu, htok, hent, hfr]
            rw [he]; exact hfetch
        | userVal u2 =>
          have he : (listRepositories f w id now wf).2.1 =
              (listFetch f w u id now wf).2.1 := by
            simp [listRepositories, hu, htok, hent]
          rw [he]; exact hfetch
        | oauthVal a b =>
          have he : (listRepositories f w id now wf).2.1 =
              (listFetch f w u id now wf).2.1 := by
            simp [listRepositories, hu, htok, hent]
          rw [he]; exact hfetch
        | timeVal t0 =>
          have he : (listRepositories f w id now wf).2.1 =
              (listFetch f w u id now wf).2.1 := by
            simp [listRepositories, hu, htok, hent]
          rw [he]; exact hfetch

lemma worldOk_create (capi : String → String → String → Bool → Repo) (w : World)
    (id n d : String) (ip : Bool) (h : worldOk w) :
    worldOk (createRepository capi w id n d ip).2.1 := by
  rw [createRepository_world]
  exact h

lemma worldOk_step {w w' : World} (h : worldOk w) (s : Step w w') : worldOk w' := by
  cases s with
  | agreeStep w id now wf => exact worldOk_agree w id now wf h
  | getUserStep w id now wf => exact worldOk_getUser w id now wf h
  | beginStep cid fu w id now wf => exact worldOk_begin cid fu w id now wf h
  | completeStep p w code id now wf => exact worldOk_complete p w code id now wf h
  | listStep f w id now wf => exact worldOk_list f w id now wf h
  | createStep capi w id n d ip => exact worldOk_create capi w id n d ip h

/-- C2: in every world reachable from the empty deployment state by any
sequence of the six public operations, every user record held in the
durable store or in a user_* snapshot entry satisfies the invariant:
isConnected is true exactly when the stored token is non-empty. -/
theorem c2_reachable_linked_iff_token (w : World) (h : Reachable w) :
    (∀ X u, alistGet w.db X = some u →
      (u.isConnected = true ↔ u.githubAccessToken ≠ "")) ∧
    (∀ k u, getFromCache w.file k = some (.userVal u) →
      (u.isConnected = true ↔ u.githubAccessToken ≠ "")) := by
  induction h with
  | init =>
    constructor
    · intro X u hX
      exact absurd hX (by simp [alistGet])
    · intro k u hk
      exact absurd hk (by simp [getFromCache, readCache, alistGet])
  | step hr hs ih => exact worldOk_step ih hs

/-- C2 witness: the invariant at the world reached by one successful OAuth
callback from the empty deployment state. -/
theorem c2_witness :
    (∀ X u, alistGet sampleReachedWorld.db X = some u →
      (u.isConnected = true ↔ u.githubAccessToken ≠ "")) ∧
    (∀ k u, getFromCache sampleReachedWorld.file k = some (.userVal u) →
      (u.isConnected = true ↔ u.githubAccessToken ≠ "")) :=
  c2_reachable_linked_iff_token sampleReachedWorld
    (Reachable.step Reachable.init
      (Step.completeStep sampleProvider ⟨[], .absent⟩ "c" "42" 0 false))

end GithubMngBot
